import Mathlib

/-!
Shallow embedding of the cache / history / session-coordination core of the
MediClarify application (src/context/MedicalContext.tsx, the later revision whose
line numbers the claims cite, together with src/components/HistoryView.tsx and the
chat-session functions of the gemini service module referenced from
src/components/ComparisonView.tsx).  Pure data is translated structurally; the
external analysis service, the chat service reply, the browser JSON parser and the
durable blob store are oracles passed as function parameters; the React state
updates of one handler are collapsed into one state-to-state function, and the one
async continuation the claims need (the chat reply) is split into an explicit
start / complete pair.
-/

namespace MediClarify

/-- The language union type of src/types.ts. -/
inductive Language
  | en
  | vi
deriving DecidableEq

/-- The documentType union of AnalysisData in src/types.ts. -/
inductive DocumentType
  | bloodTest
  | urinalysis
  | prescription
  | radiologyReport
  | dischargeSummary
  | other
deriving DecidableEq

/-- The status union of MedicalTestResult in src/types.ts. -/
inductive ResultStatus
  | normal
  | high
  | low
  | abnormal
  | borderline
  | unknown
  | critical
deriving DecidableEq

/-- The severity union of MedicalTestResult in src/types.ts. -/
inductive Severity
  | none
  | mild
  | moderate
  | concerning
  | critical
deriving DecidableEq

/-- The overallRiskLevel union of AnalysisData in src/types.ts. -/
inductive RiskLevel
  | low
  | moderate
  | high
  | critical
deriving DecidableEq

/-- The category union of ActionItem in src/types.ts. -/
inductive ActionCategory
  | medical
  | diet
  | lifestyle
  | dataVerification
  | other
deriving DecidableEq

/-- The priority union of ActionItem in src/types.ts. -/
inductive ActionPriority
  | high
  | medium
  | low
deriving DecidableEq

/-- MedicalTestResult of src/types.ts.  The JS numbers used only for
visualization are embedded as integers; no claim depends on their arithmetic. -/
structure MedicalTestResult where
  test : String
  value : String
  normalRange : String
  status : ResultStatus
  severity : Option Severity
  confidence : Nat
  explanation : String
  technicalExplanation : Option String
  notes : Option String
  numericValue : Option Int
  rangeLow : Option Int
  rangeHigh : Option Int
  unit : Option String
deriving DecidableEq

/-- ActionItem of src/types.ts. -/
structure ActionItem where
  category : ActionCategory
  priority : ActionPriority
  action : String
deriving DecidableEq

/-- GlossaryItem of src/types.ts. -/
structure GlossaryItem where
  term : String
  definition : String
deriving DecidableEq

/-- AnalysisData of src/types.ts. -/
structure AnalysisData where
  documentType : DocumentType
  summary : String
  results : List MedicalTestResult
  abnormalFindings : List String
  suggestedQuestions : List String
  errorsDetected : List String
  overallRiskLevel : RiskLevel
  overallRiskScore : Nat
  disclaimerNote : Option String
  actionPlan : List ActionItem
  glossary : List GlossaryItem
  printableReport : String
deriving DecidableEq

/-- The role union of ChatMessage in src/types.ts, also the role of a chat turn
in the gemini service session history. -/
inductive ChatRole
  | user
  | model
deriving DecidableEq

/-- ChatMessage of src/types.ts. -/
structure ChatMessage where
  id : String
  role : ChatRole
  text : String
  timestamp : Nat
deriving DecidableEq

/-- FileData of src/types.ts; the File object is represented by its name, the
only part of it the embedded code reads (fileData.file.name). -/
structure FileData where
  fileName : String
  previewUrl : String
  base64 : String
  mimeType : String
deriving DecidableEq

/-- HistoryItem as used by the later MedicalContext revision: the optional
language tag, base64, mimeType and chatHistory persistence fields included. -/
structure HistoryItem where
  id : String
  date : Nat
  language : Option Language
  fileName : String
  previewUrl : String
  data : AnalysisData
  documentType : DocumentType
  base64 : Option String
  mimeType : Option String
  chatHistory : Option (List ChatMessage)
deriving DecidableEq

/-- The empty string, named so string literals never directly follow a name. -/
def emptyStr : String := ""

/-- Comma separator used by the split in loadHistoryItem. -/
def commaSep : String := ","

/-- The data URL marker tested by previewUrl.startsWith in loadHistoryItem. -/
def dataUrlHead : String := "data:"

/-- The data image URL marker tested in the mimeType fallback of loadHistoryItem. -/
def dataImageHead : String := "data:image"

/-- Fallback mime for image data URLs in loadHistoryItem. -/
def jpegMime : String := "image/jpeg"

/-- Fallback mime for non-image previews in loadHistoryItem. -/
def pdfMime : String := "application/pdf"

/-- The language name interpolated into the gemini prompts. -/
def langName : Language → String
  | Language.en => "English"
  | Language.vi => "Vietnamese"

/-- Text of the user document turn seeded by initializeChat and restoreChatSession
in the gemini service module. -/
def docContextText (l : Language) : String :=
  "This is my medical document. I may have follow-up questions. Please answer in "
    ++ langName l ++ "."

/-- Text of the synthetic model greeting turn seeded only by initializeChat. -/
def greetingText (l : Language) : String :=
  "I have analyzed your document. I am ready to answer your questions in "
    ++ langName l ++ ". I am an AI, not a doctor."

/-- A part of a chat turn: either the inline document payload or plain text. -/
inductive ChatPart
  | inlineData (mimeType : String) (data : String)
  | text (s : String)
deriving DecidableEq

/-- One turn of the gemini chat session history. -/
structure ChatTurn where
  role : ChatRole
  parts : List ChatPart
deriving DecidableEq

/-- The module-level gemini chat session, reduced to the prior-turn history it is
created with (model name and system instruction are constants in the source). -/
structure ChatSession where
  history : List ChatTurn
deriving DecidableEq

/-- The user turn carrying the document, shared by initializeChat and
restoreChatSession. -/
def docTurn (base64Data mimeType : String) (l : Language) : ChatTurn :=
  { role := ChatRole.user,
    parts := [ChatPart.inlineData mimeType base64Data, ChatPart.text (docContextText l)] }

/-- The synthetic model greeting turn of initializeChat. -/
def greetTurn (l : Language) : ChatTurn :=
  { role := ChatRole.model, parts := [ChatPart.text (greetingText l)] }

/-- initializeChat of the gemini service: a fresh session seeded with the document
turn and the synthetic model greeting. -/
def initializeChat (base64Data mimeType : String) (l : Language) : ChatSession :=
  { history := [docTurn base64Data mimeType l, greetTurn l] }

/-- The turn a restored ChatMessage becomes in restoreChatSession. -/
def chatTurnOfMessage (m : ChatMessage) : ChatTurn :=
  { role := m.role, parts := [ChatPart.text m.text] }

/-- restoreChatSession of the gemini service: the document turn followed by the
saved transcript, with no hardcoded initial model response (the source comments
that adding one would duplicate the greeting the transcript already contains). -/
def restoreChatSession (base64Data mimeType : String) (l : Language)
    (chatHistory : List ChatMessage) : ChatSession :=
  { history := docTurn base64Data mimeType l :: chatHistory.map chatTurnOfMessage }

/-- The state held by MedicalProvider (its useState hooks) together with the
module-level chatSession of the gemini service. -/
structure ProviderState where
  language : Language
  fileData : Option FileData
  analysisData : Option AnalysisData
  analysisCache : Language → Option AnalysisData
  isAnalyzing : Bool
  error : Option String
  prefilledMessage : String
  chatMessages : List ChatMessage
  isChatLoading : Bool
  currentHistoryId : Option String
  history : List HistoryItem
  compareItems : List HistoryItem
  chatSession : Option ChatSession

/-- The cache starts empty and is reset to this by handleFileUpload and resetApp. -/
def emptyCache : Language → Option AnalysisData := fun _ => none

/-- Spread update of the analysis cache record at one language key. -/
def setCacheEntry (c : Language → Option AnalysisData) (l : Language)
    (r : AnalysisData) : Language → Option AnalysisData :=
  fun q => if q = l then some r else c q

/-- The initial provider state (all useState initial values, with nothing stored
in the durable store, and no gemini session yet). -/
def initialState : ProviderState :=
  { language := Language.en
    fileData := none
    analysisData := none
    analysisCache := emptyCache
    isAnalyzing := false
    error := none
    prefilledMessage := emptyStr
    chatMessages := []
    isChatLoading := false
    currentHistoryId := none
    history := []
    compareItems := []
    chatSession := none }

/-- The external analyze service: given base64 payload, mime type and target
language it either returns a structured result or fails (none models a thrown
error or malformed response). -/
def AnalyzeService : Type :=
  String → String → Language → Option AnalysisData

/-- An observable call to the external analyze endpoint. -/
inductive ExtCall
  | analyze (base64Data : String) (mimeType : String) (lang : Language)
deriving DecidableEq

/-- The duplicate / history-hit predicate used identically by addToHistory and by
the history lookup of performAnalysis:
h.base64 === b and (h.language === lang or (no language tag and lang is en)). -/
def matchesDocLang (b : String) (lang : Language) (h : HistoryItem) : Bool :=
  decide (h.base64 = some b) &&
    (decide (h.language = some lang) ||
      (decide (h.language = (none : Option Language)) && decide (lang = Language.en)))

/-- The user-facing analysis failure message set in the catch of performAnalysis. -/
def analysisFailedMessage : Language → String
  | Language.en =>
      "Failed to analyze document. Please ensure it is a clear medical image or PDF."
  | Language.vi =>
      "Không thể phân tích tài liệu. Vui lòng đảm bảo hình ảnh hoặc PDF rõ ràng."

/-- addToHistory of the later MedicalContext revision: checks for an existing
entry with the same (base64, language) pair and silently returns when one exists;
otherwise prepends a fresh entry, binds currentHistoryId to it, and starts its
transcript empty.  now stands for Date.now(). -/
def addToHistory (now : Nat) (st : ProviderState) (fd : FileData)
    (data : AnalysisData) (targetLanguage : Language) : ProviderState :=
  if st.history.any (matchesDocLang fd.base64 targetLanguage) then st
  else
    let newId := toString now
    let newItem : HistoryItem :=
      { id := newId
        date := now
        language := some targetLanguage
        fileName := fd.fileName
        previewUrl := fd.previewUrl
        data := data
        documentType := data.documentType
        base64 := some fd.base64
        mimeType := some fd.mimeType
        chatHistory := some [] }
    { st with currentHistoryId := some newId, history := newItem :: st.history }

/-- True exactly when the JS test (item.chatHistory && item.chatHistory.length > 0)
is truthy. -/
def nonemptyChat : Option (List ChatMessage) → Bool
  | some (_ :: _) => true
  | _ => false

/-- performAnalysis of the later MedicalContext revision, with all branch effects
collapsed into the resulting state; the returned list records the calls made to
the external analyze endpoint.  The three-step resolution: analysis cache, then
history store, then the external service. -/
def performAnalysis (svc : AnalyzeService) (now : Nat) (st : ProviderState)
    (data : FileData) (lang : Language) : ProviderState × List ExtCall :=
  match st.analysisCache lang with
  | some cached =>
      ({ st with
          analysisData := some cached
          chatSession := some (initializeChat data.base64 data.mimeType lang) }, [])
  | none =>
    match st.history.find? (matchesDocLang data.base64 lang) with
    | some historyMatch =>
        let st1 :=
          { st with
              analysisData := some historyMatch.data
              analysisCache := setCacheEntry st.analysisCache lang historyMatch.data
              currentHistoryId := some historyMatch.id }
        if nonemptyChat historyMatch.chatHistory then
          ({ st1 with
              chatMessages := historyMatch.chatHistory.getD []
              chatSession := some (restoreChatSession data.base64 data.mimeType lang
                (historyMatch.chatHistory.getD [])) }, [])
        else
          ({ st1 with
              chatMessages := []
              chatSession := some (initializeChat data.base64 data.mimeType lang) }, [])
    | none =>
        let st1 :=
          { st with
              chatMessages := []
              currentHistoryId := none
              analysisData := none
              isAnalyzing := true
              error := none }
        match svc data.base64 data.mimeType lang with
        | some result =>
            let st2 :=
              { st1 with
                  analysisData := some result
                  analysisCache := setCacheEntry st1.analysisCache lang result }
            let st3 := addToHistory now st2 data result lang
            ({ st3 with
                chatSession := some (initializeChat data.base64 data.mimeType lang)
                isAnalyzing := false },
             [ExtCall.analyze data.base64 data.mimeType lang])
        | none =>
            ({ st1 with
                error := some (analysisFailedMessage lang)
                isAnalyzing := false },
             [ExtCall.analyze data.base64 data.mimeType lang])

/-- handleFileUpload: store the new file, drop the stale result, clear the
per-language cache, then resolve in the current language. -/
def handleFileUpload (svc : AnalyzeService) (now : Nat) (st : ProviderState)
    (data : FileData) : ProviderState × List ExtCall :=
  let st1 :=
    { st with fileData := some data, analysisData := none, analysisCache := emptyCache }
  performAnalysis svc now st1 data st1.language

/-- updateLanguage: switch the language and, when a file is active and no
analysis is in flight, resolve the active file in the new language.  The cache is
left untouched here; only performAnalysis may extend it. -/
def updateLanguage (svc : AnalyzeService) (now : Nat) (st : ProviderState)
    (newLang : Language) : ProviderState × List ExtCall :=
  let st1 := { st with language := newLang }
  match st.fileData, st.isAnalyzing with
  | some d, false => performAnalysis svc now st1 d newLang
  | _, _ => (st1, [])

/-- resetApp: clear the active session.  The module-level gemini chatSession is
not touched by it (resetApp lives in the provider, the session in the service
module). -/
def resetApp (st : ProviderState) : ProviderState :=
  { st with
      fileData := none
      analysisData := none
      analysisCache := emptyCache
      error := none
      prefilledMessage := emptyStr
      chatMessages := []
      isChatLoading := false
      currentHistoryId := none }

/-- JS truthiness of an optional string field (undefined and the empty string are
falsy). -/
def strOptTruthy : Option String → Bool
  | some s => decide (s ≠ emptyStr)
  | none => false

/-- previewUrl.split(sep)[1] as used by loadHistoryItem to pull the payload out
of a data URL; the empty string stands for the undefined of an absent index. -/
def dataUrlPayload (s : String) : String :=
  List.headD ((s.splitOn commaSep).drop 1) emptyStr

/-- The mimeType fallback of loadHistoryItem for legacy entries without a stored
mime type. -/
def defaultMime (previewUrl : String) : String :=
  if previewUrl.startsWith dataImageHead then jpegMime else pdfMime

/-- The body of the smart-cache forEach of loadHistoryItem: only add a related
language version when the cache does not hold that language yet (the loaded item
takes precedence). -/
def cacheStep (c : Language → Option AnalysisData) (related : HistoryItem) :
    Language → Option AnalysisData :=
  match c (related.language.getD Language.en) with
  | some _ => c
  | none => setCacheEntry c (related.language.getD Language.en) related.data

/-- loadHistoryItem of the later MedicalContext revision: binds the active
session to the stored entry, reconstructs FileData, repopulates the per-language
cache from every history entry sharing the same base64 (smart cache population),
and restores or re-initializes the gemini session according to the stored
transcript. -/
def loadHistoryItem (st : ProviderState) (targetId : String) : ProviderState :=
  match st.history.find? (fun i => decide (i.id = targetId)) with
  | none => st
  | some item =>
    let itemLang := item.language.getD Language.en
    let isDataUrl := item.previewUrl.startsWith dataUrlHead
    let base64 :=
      match item.base64 with
      | some b =>
          if b = emptyStr then
            (if isDataUrl then dataUrlPayload item.previewUrl else emptyStr)
          else b
      | none => if isDataUrl then dataUrlPayload item.previewUrl else emptyStr
    let mt :=
      match item.mimeType with
      | some m => if m = emptyStr then defaultMime item.previewUrl else m
      | none => defaultMime item.previewUrl
    let cache1 := setCacheEntry emptyCache itemLang item.data
    let relatedItems :=
      if base64 = emptyStr then []
      else st.history.filter
        (fun h => decide (h.base64 = some base64) && decide (h.id ≠ item.id))
    let newCache := relatedItems.foldl cacheStep cache1
    let restoredChat : List ChatMessage × Option ChatSession :=
      match item.chatHistory with
      | some (m :: ms) =>
          (m :: ms,
           if strOptTruthy item.base64 && strOptTruthy item.mimeType then
             some (restoreChatSession (item.base64.getD emptyStr)
               (item.mimeType.getD emptyStr) itemLang (m :: ms))
           else st.chatSession)
      | _ =>
          ([],
           if strOptTruthy item.base64 && strOptTruthy item.mimeType then
             some (initializeChat (item.base64.getD emptyStr)
               (item.mimeType.getD emptyStr) itemLang)
           else st.chatSession)
    { st with
        currentHistoryId := some item.id
        language := itemLang
        analysisData := some item.data
        fileData := some
          { fileName := item.fileName
            previewUrl := item.previewUrl
            base64 := base64
            mimeType := mt }
        analysisCache := newCache
        error := none
        prefilledMessage := emptyStr
        chatMessages := restoredChat.1
        chatSession := restoredChat.2 }

/-- The language captured by the sendUserMessage closure when the request was
issued (used only for the error turn text). -/
structure PendingChat where
  capturedLanguage : Language
deriving DecidableEq

/-- The chat error turn text of the sendUserMessage catch. -/
def chatErrorText : Language → String
  | Language.en => "Sorry, I encountered an issue. Please try again."
  | Language.vi => "Xin lỗi, đã có lỗi xảy ra. Vui lòng thử lại."

/-- Falsiness of textInput.trim() in the sendUserMessage guard: trim strips
leading and trailing whitespace, so the trimmed string is empty exactly when
every character of the input is whitespace. -/
def jsBlank (s : String) : Bool :=
  s.toList.all (fun c => c.isWhitespace)

/-- The synchronous part of sendUserMessage: guard on blank input or an
outstanding reply, append the user turn, raise the loading flag, and record the
in-flight request.  none means no request was issued. -/
def sendUserMessageStart (now : Nat) (st : ProviderState) (textInput : String) :
    ProviderState × Option PendingChat :=
  if jsBlank textInput || st.isChatLoading then (st, none)
  else
    let userMsg : ChatMessage :=
      { id := toString now, role := ChatRole.user, text := textInput, timestamp := now }
    ({ st with chatMessages := st.chatMessages ++ [userMsg], isChatLoading := true },
     some { capturedLanguage := st.language })

/-- The continuation of sendUserMessage once the awaited reply settles, applied
to whatever the provider state is at that moment (the source appends through a
functional setState update).  some t is a reply, none a thrown chat error. -/
def sendUserMessageComplete (pending : PendingChat) (reply : Option String)
    (now : Nat) (st : ProviderState) : ProviderState :=
  match reply with
  | some t =>
      let botMsg : ChatMessage :=
        { id := toString (now + 1), role := ChatRole.model, text := t, timestamp := now }
      { st with chatMessages := st.chatMessages ++ [botMsg], isChatLoading := false }
  | none =>
      let errorMsg : ChatMessage :=
        { id := toString (now + 1), role := ChatRole.model,
          text := chatErrorText pending.capturedLanguage, timestamp := now }
      { st with chatMessages := st.chatMessages ++ [errorMsg], isChatLoading := false }

/-- The console.warn text of the history save effect. -/
def saveWarningText : String := "LocalStorage quota exceeded or error saving history"

/-- The save-history useEffect: serialize models JSON.stringify, write models
localStorage.setItem where none models a thrown quota error.  The catch swallows
the error and only emits the warning; the in-memory state is returned unchanged
and, the function being total, no exception propagates. -/
def saveHistoryEffect (write : String → Option Unit)
    (serialize : List HistoryItem → String) (st : ProviderState) :
    ProviderState × Option String :=
  match write (serialize st.history) with
  | some _ => (st, none)
  | none => (st, some saveWarningText)

/-- The useState initializer of the history list: a missing stored blob (and the
falsy empty string) initializes empty; otherwise the stored blob is handed to
parse, which models JSON.parse, an Except.error modelling a thrown parse
exception that the initializer does not catch. -/
def initHistoryState (stored : Option String)
    (parse : String → Except String (List HistoryItem)) :
    Except String (List HistoryItem) :=
  match stored with
  | none => Except.ok []
  | some s => if s = emptyStr then Except.ok [] else parse s

/-- toggleSelection of HistoryView, applied to the latest item of a clicked
group: deselect when already selected, append when fewer than two are selected,
otherwise drop the first-chosen item and append the new one. -/
def toggleSelection (compareItems : List HistoryItem) (latestItem : HistoryItem) :
    List HistoryItem :=
  if compareItems.any (fun i => decide (i.id = latestItem.id)) then
    compareItems.filter (fun i => decide (i.id ≠ latestItem.id))
  else if compareItems.length ≥ 2 then
    compareItems.tail ++ [latestItem]
  else
    compareItems ++ [latestItem]

/-- The group click handler of HistoryView picks the latest item of the group
(sort descending by date, take the head) and toggles it. -/
def toggleSelectionGroup (compareItems : List HistoryItem)
    (group : List HistoryItem) : List HistoryItem :=
  match (group.mergeSort (fun a b => decide (b.date ≤ a.date))).head? with
  | none => compareItems
  | some latestItem => toggleSelection compareItems latestItem

/-- The type-mismatch guard of HistoryView: two selected entries with different
document classifications. -/
def typeMismatch (st : ProviderState) : Bool :=
  match st.compareItems with
  | [a, b] => decide (a.documentType ≠ b.documentType)
  | _ => false

/-- Modelled from the spec: the history entry appended when the on-the-fly
resolution of prepareComparison succeeds for a selected entry. -/
def preparedEntry (now : Nat) (e : HistoryItem) (targetLang : Language)
    (result : AnalysisData) : HistoryItem :=
  { id := toString now
    date := now
    language := some targetLang
    fileName := e.fileName
    previewUrl := e.previewUrl
    data := result
    documentType := result.documentType
    base64 := some (e.base64.getD emptyStr)
    mimeType := some (e.mimeType.getD emptyStr)
    chatHistory := some [] }

/-- Modelled from the spec: the prepareComparison function destructured from the
medical context by HistoryView and awaited in handleCompare has no implementation
under src/ (only its caller is present there).  Following section 4.6 of the
spec: for each selected entry not already available in the target language for
its own document identity, trigger an on-the-fly resolution per section 4.4
(history lookup, then the external analyze service, a successful resolution
appending a history entry for the pair) before allowing navigation; the boolean
reports whether every selected entry is now available in the target language. -/
def prepareComparison (svc : AnalyzeService) (now : Nat) (st : ProviderState)
    (selection : List HistoryItem) (targetLang : Language) :
    ProviderState × List ExtCall × Bool :=
  match selection with
  | [] => (st, [], true)
  | e :: rest =>
    match st.history.find? (matchesDocLang (e.base64.getD emptyStr) targetLang) with
    | some _ => prepareComparison svc now st rest targetLang
    | none =>
      match svc (e.base64.getD emptyStr) (e.mimeType.getD emptyStr) targetLang with
      | some result =>
          let next := prepareComparison svc now
            { st with history := preparedEntry now e targetLang result :: st.history }
            rest targetLang
          (next.1,
           ExtCall.analyze (e.base64.getD emptyStr) (e.mimeType.getD emptyStr) targetLang
             :: next.2.1,
           next.2.2)
      | none =>
          let next := prepareComparison svc now st rest targetLang
          (next.1,
           ExtCall.analyze (e.base64.getD emptyStr) (e.mimeType.getD emptyStr) targetLang
             :: next.2.1,
           false)

/-- handleCompare of HistoryView: navigation to the comparison view happens only
when exactly two entries are selected, their classifications agree, no analysis
is in flight, and preparation succeeds; the boolean is the navigation. -/
def handleCompare (svc : AnalyzeService) (now : Nat) (st : ProviderState) :
    ProviderState × List ExtCall × Bool :=
  if decide (st.compareItems.length = 2) && !typeMismatch st && !st.isAnalyzing then
    prepareComparison svc now st st.compareItems st.language
  else (st, [], false)

/-! Concrete values used by example states and witnesses. -/

/-- Example base64 payload (ABC). -/
def exB64 : String := "QUJD"

/-- A second, distinct example base64 payload (XYZ). -/
def exB64b : String := "WFla"

/-- Example mime type. -/
def exMime : String := "image/png"

/-- Example file name. -/
def exFileName : String := "report.png"

/-- Example preview handle. -/
def exPreview : String := "blob:doc"

/-- Example analysis result. -/
def dEx : AnalysisData :=
  { documentType := DocumentType.bloodTest
    summary := emptyStr
    results := []
    abnormalFindings := []
    suggestedQuestions := []
    errorsDetected := []
    overallRiskLevel := RiskLevel.low
    overallRiskScore := 10
    disclaimerNote := none
    actionPlan := []
    glossary := []
    printableReport := emptyStr }

/-- A second, distinct example analysis result. -/
def dEx2 : AnalysisData := { dEx with overallRiskScore := 40 }

/-- Example uploaded file. -/
def fdEx : FileData :=
  { fileName := exFileName, previewUrl := exPreview, base64 := exB64, mimeType := exMime }

/-- An analyze service that always fails. -/
def svcFail : AnalyzeService := fun _ _ _ => none

/-- An analyze service that always succeeds with dEx2. -/
def svcOk : AnalyzeService := fun _ _ _ => some dEx2

/-! Helper lemmas about the branches of performAnalysis, shared by several of the
claim theorems below. -/

theorem performAnalysis_cache_hit (svc : AnalyzeService) (now : Nat)
    (st : ProviderState) (data : FileData) (lang : Language) (r : AnalysisData)
    (h : st.analysisCache lang = some r) :
    performAnalysis svc now st data lang =
      ({ st with
          analysisData := some r
          chatSession := some (initializeChat data.base64 data.mimeType lang) }, []) := by
  simp [performAnalysis, h]

theorem performAnalysis_miss_calls (svc : AnalyzeService) (now : Nat)
    (st : ProviderState) (data : FileData) (lang : Language)
    (hc : st.analysisCache lang = none)
    (hh : st.history.find? (matchesDocLang data.base64 lang) = none) :
    (performAnalysis svc now st data lang).2 =
      [ExtCall.analyze data.base64 data.mimeType lang] := by
  cases hs : svc data.base64 data.mimeType lang <;>
    simp [performAnalysis, hc, hh, hs]

theorem performAnalysis_calls_lang (svc : AnalyzeService) (now : Nat)
    (st : ProviderState) (data : FileData) (lang : Language) :
    ∀ c ∈ (performAnalysis svc now st data lang).2,
      c = ExtCall.analyze data.base64 data.mimeType lang := by
  intro c hc
  cases h1 : st.analysisCache lang with
  | some r => simp [performAnalysis, h1] at hc
  | none =>
    cases h2 : st.history.find? (matchesDocLang data.base64 lang) with
    | some hm =>
      rcases h3 : nonemptyChat hm.chatHistory <;>
        simp [performAnalysis, h1, h2, h3] at hc
    | none =>
      cases h4 : svc data.base64 data.mimeType lang <;>
        simpa [performAnalysis, h1, h2, h4] using hc

theorem performAnalysis_calls_len (svc : AnalyzeService) (now : Nat)
    (st : ProviderState) (data : FileData) (lang : Language) :
    (performAnalysis svc now st data lang).2.length ≤ 1 := by
  cases h1 : st.analysisCache lang with
  | some r => simp [performAnalysis, h1]
  | none =>
    cases h2 : st.history.find? (matchesDocLang data.base64 lang) with
    | some hm =>
      rcases h3 : nonemptyChat hm.chatHistory <;>
        simp [performAnalysis, h1, h2, h3]
    | none =>
      cases h4 : svc data.base64 data.mimeType lang <;>
        simp [performAnalysis, h1, h2, h4]

theorem performAnalysis_cache_other (svc : AnalyzeService) (now : Nat)
    (st : ProviderState) (data : FileData) (lang L : Language) (hne : L ≠ lang) :
    (performAnalysis svc now st data lang).1.analysisCache L =
      st.analysisCache L := by
  cases h1 : st.analysisCache lang with
  | some r => simp [performAnalysis, h1]
  | none =>
    cases h2 : st.history.find? (matchesDocLang data.base64 lang) with
    | some hm =>
      rcases h3 : nonemptyChat hm.chatHistory <;>
        simp [performAnalysis, h1, h2, h3, setCacheEntry, hne]
    | none =>
      cases h4 : svc data.base64 data.mimeType lang with
      | some r =>
        by_cases h5 : ({ st with
            chatMessages := []
            currentHistoryId := none
            analysisData := none
            isAnalyzing := true
            error := none } : ProviderState).history.any
              (matchesDocLang data.base64 lang) <;>
          simp [performAnalysis, h1, h2, h4, addToHistory, h5, setCacheEntry, hne]
      | none => simp [performAnalysis, h1, h2, h4]

theorem performAnalysis_cache_mono (svc : AnalyzeService) (now : Nat)
    (st : ProviderState) (data : FileData) (lang L : Language) (r : AnalysisData)
    (h : st.analysisCache L = some r) :
    (performAnalysis svc now st data lang).1.analysisCache L = some r := by
  by_cases hL : L = lang
  · subst hL
    rw [performAnalysis_cache_hit svc now st data L r h]
    exact h
  · rw [performAnalysis_cache_other svc now st data lang L hL]
    exact h

theorem performAnalysis_cache_filled (svc : AnalyzeService) (now : Nat)
    (st : ProviderState) (data : FileData) (lang : Language) (r : AnalysisData)
    (hs : svc data.base64 data.mimeType lang = some r) :
    ∃ r2, (performAnalysis svc now st data lang).1.analysisCache lang = some r2 := by
  cases h1 : st.analysisCache lang with
  | some c =>
    exact ⟨c, by rw [performAnalysis_cache_hit svc now st data lang c h1]; exact h1⟩
  | none =>
    cases h2 : st.history.find? (matchesDocLang data.base64 lang) with
    | some hm =>
      refine ⟨hm.data, ?_⟩
      rcases h3 : nonemptyChat hm.chatHistory <;>
        simp [performAnalysis, h1, h2, h3, setCacheEntry]
    | none =>
      refine ⟨r, ?_⟩
      by_cases h5 : ({ st with
          chatMessages := []
          currentHistoryId := none
          analysisData := none
          isAnalyzing := true
          error := none } : ProviderState).history.any
            (matchesDocLang data.base64 lang) <;>
        simp [performAnalysis, h1, h2, hs, addToHistory, h5, setCacheEntry]

theorem performAnalysis_fileData (svc : AnalyzeService) (now : Nat)
    (st : ProviderState) (data : FileData) (lang : Language) :
    (performAnalysis svc now st data lang).1.fileData = st.fileData := by
  cases h1 : st.analysisCache lang with
  | some r => simp [performAnalysis, h1]
  | none =>
    cases h2 : st.history.find? (matchesDocLang data.base64 lang) with
    | some hm =>
      rcases h3 : nonemptyChat hm.chatHistory <;>
        simp [performAnalysis, h1, h2, h3]
    | none =>
      cases h4 : svc data.base64 data.mimeType lang with
      | some r =>
        by_cases h5 : ({ st with
            chatMessages := []
            currentHistoryId := none
            analysisData := none
            isAnalyzing := true
            error := none } : ProviderState).history.any
              (matchesDocLang data.base64 lang) <;>
          simp [performAnalysis, h1, h2, h4, addToHistory, h5]
      | none => simp [performAnalysis, h1, h2, h4]

theorem performAnalysis_isAnalyzing (svc : AnalyzeService) (now : Nat)
    (st : ProviderState) (data : FileData) (lang : Language)
    (h : st.isAnalyzing = false) :
    (performAnalysis svc now st data lang).1.isAnalyzing = false := by
  cases h1 : st.analysisCache lang with
  | some r => simp [performAnalysis, h1, h]
  | none =>
    cases h2 : st.history.find? (matchesDocLang data.base64 lang) with
    | some hm =>
      rcases h3 : nonemptyChat hm.chatHistory <;>
        simp [performAnalysis, h1, h2, h3, h]
    | none =>
      cases h4 : svc data.base64 data.mimeType lang with
      | some r =>
        by_cases h5 : ({ st with
            chatMessages := []
            currentHistoryId := none
            analysisData := none
            isAnalyzing := true
            error := none } : ProviderState).history.any
              (matchesDocLang data.base64 lang) <;>
          simp [performAnalysis, h1, h2, h4, addToHistory, h5]
      | none => simp [performAnalysis, h1, h2, h4]

theorem performAnalysis_language (svc : AnalyzeService) (now : Nat)
    (st : ProviderState) (data : FileData) (lang : Language) :
    (performAnalysis svc now st data lang).1.language = st.language := by
  cases h1 : st.analysisCache lang with
  | some r => simp [performAnalysis, h1]
  | none =>
    cases h2 : st.history.find? (matchesDocLang data.base64 lang) with
    | some hm =>
      rcases h3 : nonemptyChat hm.chatHistory <;>
        simp [performAnalysis, h1, h2, h3]
    | none =>
      cases h4 : svc data.base64 data.mimeType lang with
      | some r =>
        by_cases h5 : ({ st with
            chatMessages := []
            currentHistoryId := none
            analysisData := none
            isAnalyzing := true
            error := none } : ProviderState).history.any
              (matchesDocLang data.base64 lang) <;>
          simp [performAnalysis, h1, h2, h4, addToHistory, h5]
      | none => simp [performAnalysis, h1, h2, h4]

theorem updateLanguage_run (svc : AnalyzeService) (now : Nat)
    (st : ProviderState) (newLang : Language) (d : FileData)
    (hfd : st.fileData = some d) (ha : st.isAnalyzing = false) :
    updateLanguage svc now st newLang =
      performAnalysis svc now { st with language := newLang } d newLang := by
  simp [updateLanguage, hfd, ha]

/-- Number of analyze calls for one language in a call trace. -/
def countLang (calls : List ExtCall) (L : Language) : Nat :=
  calls.countP (fun c => match c with | ExtCall.analyze _ _ l => decide (l = L))

theorem countLang_append (a b : List ExtCall) (L : Language) :
    countLang (a ++ b) L = countLang a L + countLang b L := by
  simp [countLang, List.countP_append]

theorem countLang_le_length (calls : List ExtCall) (L : Language) :
    countLang calls L ≤ calls.length :=
  List.countP_le_length _

theorem countLang_eq_zero_of_lang (calls : List ExtCall) (b mt : String)
    (L0 L : Language) (hall : ∀ c ∈ calls, c = ExtCall.analyze b mt L0)
    (hne : L0 ≠ L) : countLang calls L = 0 := by
  rw [countLang, List.countP_eq_zero]
  intro c hc
  rw [hall c hc]
  simp [hne]

/-- Example states used by witnesses: a state whose cache already holds the
English result, and a state whose history holds one English entry for the
example document. -/
def stCacheEx : ProviderState :=
  { initialState with
      fileData := some fdEx
      analysisCache := setCacheEntry emptyCache Language.en dEx }

/-- Example English history entry for the example document, with an empty saved
transcript. -/
def entryEx : HistoryItem :=
  { id := "h1"
    date := 5
    language := some Language.en
    fileName := exFileName
    previewUrl := exPreview
    data := dEx
    documentType := DocumentType.bloodTest
    base64 := some exB64
    mimeType := some exMime
    chatHistory := some [] }

/-- State holding only the example English history entry. -/
def stHistEx : ProviderState := { initialState with history := [entryEx] }

/-- C1: performAnalysis resolves in the strict order cache, history, external
service: a cache hit for the language is used as the result and only re-creates
the conversational session for the (document, language) pair without any external
analyze call; a history hit for (document content, language) is used as the
result, populates the cache, binds the active session to the id of the entry, and
restores the chat session from a non-empty saved transcript or initializes it
fresh, again without any external call; only when both miss is the external
analyze service invoked. -/
theorem performAnalysis_resolution_order (svc : AnalyzeService) (now : Nat)
    (st : ProviderState) (data : FileData) (lang : Language) :
    (∀ r, st.analysisCache lang = some r →
       performAnalysis svc now st data lang =
         ({ st with
             analysisData := some r
             chatSession := some (initializeChat data.base64 data.mimeType lang) }, []))
    ∧ (∀ hm, st.analysisCache lang = none →
         st.history.find? (matchesDocLang data.base64 lang) = some hm →
         (performAnalysis svc now st data lang).2 = []
         ∧ (performAnalysis svc now st data lang).1.analysisData = some hm.data
         ∧ (performAnalysis svc now st data lang).1.analysisCache lang = some hm.data
         ∧ (performAnalysis svc now st data lang).1.currentHistoryId = some hm.id
         ∧ (nonemptyChat hm.chatHistory = true →
              (performAnalysis svc now st data lang).1.chatSession =
                some (restoreChatSession data.base64 data.mimeType lang
                  (hm.chatHistory.getD []))
              ∧ (performAnalysis svc now st data lang).1.chatMessages =
                  hm.chatHistory.getD [])
         ∧ (nonemptyChat hm.chatHistory = false →
              (performAnalysis svc now st data lang).1.chatSession =
                some (initializeChat data.base64 data.mimeType lang)
              ∧ (performAnalysis svc now st data lang).1.chatMessages = []))
    ∧ (st.analysisCache lang = none →
        st.history.find? (matchesDocLang data.base64 lang) = none →
        (performAnalysis svc now st data lang).2 =
          [ExtCall.analyze data.base64 data.mimeType lang]) := by
  refine ⟨?_, ?_, ?_⟩
  · intro r h
    exact performAnalysis_cache_hit svc now st data lang r h
  · intro hm hc hh
    rcases h3 : nonemptyChat hm.chatHistory <;>
      simp [performAnalysis, hc, hh, h3, setCacheEntry]
  · intro hc hh
    exact performAnalysis_miss_calls svc now st data lang hc hh

/-- Witness for C1: each of the three resolution branches evaluated at a concrete
state. -/
theorem performAnalysis_resolution_order_witness :
    performAnalysis svcFail 3 stCacheEx fdEx Language.en =
      ({ stCacheEx with
          analysisData := some dEx
          chatSession :=
            some (initializeChat fdEx.base64 fdEx.mimeType Language.en) }, [])
    ∧ (performAnalysis svcFail 3 stHistEx fdEx Language.en).2 = []
    ∧ (performAnalysis svcFail 3 stHistEx fdEx Language.en).1.analysisCache
        Language.en = some dEx
    ∧ (performAnalysis svcFail 4 initialState fdEx Language.en).2 =
        [ExtCall.analyze fdEx.base64 fdEx.mimeType Language.en] :=
  ⟨(performAnalysis_resolution_order svcFail 3 stCacheEx fdEx Language.en).1 dEx rfl,
   ((performAnalysis_resolution_order svcFail 3 stHistEx fdEx Language.en).2.1
      entryEx rfl rfl).1,
   ((performAnalysis_resolution_order svcFail 3 stHistEx fdEx Language.en).2.1
      entryEx rfl rfl).2.2.1,
   (performAnalysis_resolution_order svcFail 4 initialState fdEx Language.en).2.2
      rfl rfl⟩

/-- C2: analyzing a document in one language, switching to a second language and
switching back makes at most one external analyze call per distinct language
(the third request is served by the cache helped along by history); switching
language never clears the per-language cache (cache entries survive
updateLanguage), while uploading a new document clears it (after handleFileUpload
no language other than the current one is cached). -/
theorem analysis_cache_idempotence (svc : AnalyzeService) (n1 n2 n3 : Nat)
    (st : ProviderState) (d : FileData) (L1 L2 : Language) (r1 r2 : AnalysisData)
    (hL : st.language = L1) (hA : st.isAnalyzing = false) (hne : L1 ≠ L2)
    (h1 : svc d.base64 d.mimeType L1 = some r1)
    (h2 : svc d.base64 d.mimeType L2 = some r2) :
    (∀ L : Language,
       countLang ((handleFileUpload svc n1 st d).2
         ++ (updateLanguage svc n2 (handleFileUpload svc n1 st d).1 L2).2
         ++ (updateLanguage svc n3
              (updateLanguage svc n2 (handleFileUpload svc n1 st d).1 L2).1 L1).2)
         L ≤ 1)
    ∧ (∀ (st2 : ProviderState) (m : Nat) (L L3 : Language) (r : AnalysisData),
         st2.analysisCache L = some r →
         (updateLanguage svc m st2 L3).1.analysisCache L = some r)
    ∧ (∀ (st2 : ProviderState) (m : Nat) (L : Language),
         L ≠ st2.language →
         (handleFileUpload svc m st2 d).1.analysisCache L = none) := by
  subst hL
  have monoUpd : ∀ (st2 : ProviderState) (m : Nat) (L L3 : Language)
      (r : AnalysisData), st2.analysisCache L = some r →
      (updateLanguage svc m st2 L3).1.analysisCache L = some r := by
    intro st2 m L L3 r h
    cases hf : st2.fileData with
    | none =>
        simp [updateLanguage, hf]
        exact h
    | some dd =>
        cases ha2 : st2.isAnalyzing with
        | false =>
            rw [updateLanguage_run svc m st2 L3 dd hf ha2]
            exact performAnalysis_cache_mono svc m _ dd L3 L r h
        | true =>
            simp [updateLanguage, hf, ha2]
            exact h
  refine ⟨?_, monoUpd, ?_⟩
  · intro L
    have hUpair : handleFileUpload svc n1 st d =
        performAnalysis svc n1
          { st with
              fileData := some d
              analysisData := none
              analysisCache := emptyCache } d st.language := rfl
    have hc1lang : ∀ c ∈ (handleFileUpload svc n1 st d).2,
        c = ExtCall.analyze d.base64 d.mimeType st.language := by
      rw [hUpair]
      exact performAnalysis_calls_lang svc n1 _ d st.language
    have hc1len : (handleFileUpload svc n1 st d).2.length ≤ 1 := by
      rw [hUpair]
      exact performAnalysis_calls_len svc n1 _ d st.language
    have hAfd : (handleFileUpload svc n1 st d).1.fileData = some d := by
      rw [hUpair, performAnalysis_fileData]
    have hAan : (handleFileUpload svc n1 st d).1.isAnalyzing = false := by
      rw [hUpair]
      exact performAnalysis_isAnalyzing svc n1 _ d st.language hA
    obtain ⟨ra, hAcache⟩ :
        ∃ ra, (handleFileUpload svc n1 st d).1.analysisCache st.language = some ra := by
      rw [hUpair]
      exact performAnalysis_cache_filled svc n1 _ d st.language r1 h1
    have hVeq : updateLanguage svc n2 (handleFileUpload svc n1 st d).1 L2 =
        performAnalysis svc n2
          { (handleFileUpload svc n1 st d).1 with language := L2 } d L2 :=
      updateLanguage_run svc n2 _ L2 d hAfd hAan
    have hc2lang : ∀ c ∈ (updateLanguage svc n2 (handleFileUpload svc n1 st d).1 L2).2,
        c = ExtCall.analyze d.base64 d.mimeType L2 := by
      rw [hVeq]
      exact performAnalysis_calls_lang svc n2 _ d L2
    have hc2len : (updateLanguage svc n2 (handleFileUpload svc n1 st d).1 L2).2.length ≤ 1 := by
      rw [hVeq]
      exact performAnalysis_calls_len svc n2 _ d L2
    have hBfd : (updateLanguage svc n2 (handleFileUpload svc n1 st d).1 L2).1.fileData =
        some d := by
      rw [hVeq, performAnalysis_fileData]
      exact hAfd
    have hBan : (updateLanguage svc n2 (handleFileUpload svc n1 st d).1 L2).1.isAnalyzing =
        false := by
      rw [hVeq]
      exact performAnalysis_isAnalyzing svc n2 _ d L2 hAan
    have hBcache : (updateLanguage svc n2 (handleFileUpload svc n1 st d).1 L2).1.analysisCache
        st.language = some ra := by
      rw [hVeq]
      exact performAnalysis_cache_mono svc n2 _ d L2 st.language ra hAcache
    have hWeq : updateLanguage svc n3
          (updateLanguage svc n2 (handleFileUpload svc n1 st d).1 L2).1 st.language =
        performAnalysis svc n3
          { (updateLanguage svc n2 (handleFileUpload svc n1 st d).1 L2).1 with
            language := st.language } d st.language :=
      updateLanguage_run svc n3 _ st.language d hBfd hBan
    have hc3 : (updateLanguage svc n3
        (updateLanguage svc n2 (handleFileUpload svc n1 st d).1 L2).1 st.language).2 = [] := by
      rw [hWeq, performAnalysis_cache_hit svc n3
        { (updateLanguage svc n2 (handleFileUpload svc n1 st d).1 L2).1 with
            language := st.language } d st.language ra hBcache]
    rw [countLang_append, countLang_append, hc3]
    have z0 : countLang [] L = 0 := rfl
    by_cases hLL : L = st.language
    · have z2 : countLang (updateLanguage svc n2 (handleFileUpload svc n1 st d).1 L2).2 L = 0 :=
        countLang_eq_zero_of_lang _ d.base64 d.mimeType L2 L hc2lang
          (by rw [hLL]; exact fun hh => hne hh.symm)
      have o1 : countLang (handleFileUpload svc n1 st d).2 L ≤ 1 :=
        le_trans (countLang_le_length _ _) hc1len
      omega
    · have z1 : countLang (handleFileUpload svc n1 st d).2 L = 0 :=
        countLang_eq_zero_of_lang _ d.base64 d.mimeType st.language L hc1lang
          (fun hh => hLL hh.symm)
      have o2 : countLang (updateLanguage svc n2 (handleFileUpload svc n1 st d).1 L2).2 L ≤ 1 :=
        le_trans (countLang_le_length _ _) hc2len
      omega
  · intro st2 m L hL2
    show (performAnalysis svc m
        { st2 with
            fileData := some d
            analysisData := none
            analysisCache := emptyCache } d st2.language).1.analysisCache L = none
    rw [performAnalysis_cache_other svc m _ d st2.language L hL2]
    rfl

/-- Witness for C2: the upload / switch / switch-back trace on the empty initial
state with an always-succeeding service, a concrete surviving cache entry across
a language switch, and a concrete cleared entry after an upload. -/
theorem analysis_cache_idempotence_witness :
    countLang ((handleFileUpload svcOk 1 initialState fdEx).2
      ++ (updateLanguage svcOk 2 (handleFileUpload svcOk 1 initialState fdEx).1
            Language.vi).2
      ++ (updateLanguage svcOk 3
           (updateLanguage svcOk 2 (handleFileUpload svcOk 1 initialState fdEx).1
             Language.vi).1 Language.en).2) Language.en ≤ 1
    ∧ (updateLanguage svcOk 5 stCacheEx Language.vi).1.analysisCache Language.en =
        some dEx
    ∧ (handleFileUpload svcOk 5 initialState fdEx).1.analysisCache Language.vi = none :=
  ⟨(analysis_cache_idempotence svcOk 1 2 3 initialState fdEx Language.en Language.vi
      dEx2 dEx2 rfl rfl (by decide) rfl rfl).1 Language.en,
   (analysis_cache_idempotence svcOk 1 2 3 initialState fdEx Language.en Language.vi
      dEx2 dEx2 rfl rfl (by decide) rfl rfl).2.1 stCacheEx 5 Language.en Language.vi
      dEx rfl,
   (analysis_cache_idempotence svcOk 1 2 3 initialState fdEx Language.en Language.vi
      dEx2 dEx2 rfl rfl (by decide) rfl rfl).2.2 initialState 5 Language.vi (by decide)⟩

/-- C4: when resolution reaches the external analyze call and the call fails, no
history entry is created or persisted, a user-facing error message is set, the
cache is not populated for the requested language, and no result is bound. -/
theorem performAnalysis_failure_all_or_nothing (svc : AnalyzeService) (now : Nat)
    (st : ProviderState) (data : FileData) (lang : Language)
    (hc : st.analysisCache lang = none)
    (hh : st.history.find? (matchesDocLang data.base64 lang) = none)
    (hs : svc data.base64 data.mimeType lang = none) :
    (performAnalysis svc now st data lang).1.history = st.history
    ∧ (performAnalysis svc now st data lang).1.error =
        some (analysisFailedMessage lang)
    ∧ (performAnalysis svc now st data lang).1.analysisCache lang = none
    ∧ (performAnalysis svc now st data lang).1.analysisData = none
    ∧ (performAnalysis svc now st data lang).1.currentHistoryId = none := by
  simp [performAnalysis, hc, hh, hs]

/-- Witness for C4: a failing service on the empty initial state. -/
theorem performAnalysis_failure_all_or_nothing_witness :
    (performAnalysis svcFail 2 initialState fdEx Language.en).1.history =
      initialState.history
    ∧ (performAnalysis svcFail 2 initialState fdEx Language.en).1.error =
        some (analysisFailedMessage Language.en)
    ∧ (performAnalysis svcFail 2 initialState fdEx Language.en).1.analysisCache
        Language.en = none
    ∧ (performAnalysis svcFail 2 initialState fdEx Language.en).1.analysisData = none
    ∧ (performAnalysis svcFail 2 initialState fdEx Language.en).1.currentHistoryId =
        none :=
  performAnalysis_failure_all_or_nothing svcFail 2 initialState fdEx Language.en
    rfl rfl rfl

/-- Counterexample for C3: appending an entry whose (document content, language)
pair already exists is a silent no-op, not a surfaced DuplicateEntry error — the
state comes back completely unchanged, no error field is set and the history
still holds exactly the one pre-existing entry. -/
theorem addToHistory_duplicate_error_cex :
    addToHistory 7 stHistEx fdEx dEx Language.en = stHistEx
    ∧ stHistEx.error = none
    ∧ (addToHistory 7 stHistEx fdEx dEx Language.en).history.length = 1 :=
  ⟨rfl, rfl, rfl⟩

/-- C3 amended: whenever an entry with the same (document content, language) pair
already exists in the store, addToHistory dedupes silently — it returns the state
unchanged and surfaces nothing to the caller. -/
theorem addToHistory_duplicate_silent (now : Nat) (st : ProviderState)
    (fd : FileData) (data : AnalysisData) (lang : Language)
    (h : st.history.any (matchesDocLang fd.base64 lang) = true) :
    addToHistory now st fd data lang = st := by
  simp [addToHistory, h]

/-- Witness for the amended C3. -/
theorem addToHistory_duplicate_silent_witness :
    addToHistory 8 stHistEx fdEx dEx Language.en = stHistEx :=
  addToHistory_duplicate_silent 8 stHistEx fdEx dEx Language.en (by decide)

/-- Example state with a bound chat session and an in-flight-ready chat. -/
def stChatReady : ProviderState :=
  { initialState with
      fileData := some fdEx
      analysisData := some dEx
      chatSession := some (initializeChat exB64 exMime Language.en) }

/-- Example user input text. -/
def helloText : String := "hi"

/-- Example stale reply text. -/
def staleReplyText : String := "stale reply"

/-- Counterexample for C5: a chat request is started, the application is reset
before the reply resolves, and when the reply arrives it is appended to the
transcript of the new active session rather than detected as stale and dropped —
the post-reset transcript is empty, yet after the reply lands it is not. -/
theorem stale_chat_reply_dropped_cex :
    (sendUserMessageStart 5 stChatReady helloText).2 =
      some { capturedLanguage := Language.en }
    ∧ (resetApp (sendUserMessageStart 5 stChatReady helloText).1).chatMessages = []
    ∧ (sendUserMessageComplete { capturedLanguage := Language.en }
        (some staleReplyText) 6
        (resetApp (sendUserMessageStart 5 stChatReady helloText).1)).chatMessages ≠
        [] :=
  ⟨by decide, by decide, by decide⟩

/-- C5 amended: the in-flight chat reply is not compared against the current
active session; whatever the state is when it resolves, the continuation appends
the reply turn to the then-current transcript, so after a reset the new
transcript consists exactly of the stale reply turn. -/
theorem stale_chat_reply_appended (st : ProviderState) (p : PendingChat)
    (t : String) (now : Nat) :
    (sendUserMessageComplete p (some t) now (resetApp st)).chatMessages =
      [{ id := toString (now + 1), role := ChatRole.model, text := t,
         timestamp := now }] := by
  simp [sendUserMessageComplete, resetApp]

/-- The stored blob used by the unparseable-history counterexample: a lone open
brace, on which the browser JSON.parse throws. -/
def openBraceText : String := "\x7b"

/-- The message of the modelled parse exception. -/
def jsonSyntaxErrText : String := "SyntaxError: Expected property name"

/-- Models JSON.parse on a stored blob it rejects (such as the lone open brace):
the thrown exception is represented by Except.error. -/
def parseRejecting : String → Except String (List HistoryItem) :=
  fun _ => Except.error jsonSyntaxErrText

/-- Counterexample for C6: with a present but unparseable stored history blob the
useState initializer does not initialize empty — the parse exception of JSON.parse
propagates out of the initializer instead (startup is unprotected), refuting the
claim that an unparseable blob initializes the store empty. -/
theorem history_init_unparseable_cex :
    initHistoryState (some openBraceText) parseRejecting ≠ Except.ok [] := by
  intro h
  exact Except.noConfusion h

/-- C6 amended: a failed durable write is caught and reported as a non-fatal
warning while the in-memory history stays untouched and authoritative (the save
effect is total, so nothing propagates to the caller); on startup an absent
stored blob initializes the store empty, but a present unparseable blob makes the
initializer propagate the parse error rather than initialize empty. -/
theorem history_persistence_policy (write : String → Option Unit)
    (serialize : List HistoryItem → String) (st : ProviderState) (s : String)
    (parse : String → Except String (List HistoryItem)) (e : String)
    (hw : write (serialize st.history) = none)
    (hs : s ≠ emptyStr) (hp : parse s = Except.error e) :
    (saveHistoryEffect write serialize st).1 = st
    ∧ (saveHistoryEffect write serialize st).2 = some saveWarningText
    ∧ initHistoryState none parse = Except.ok []
    ∧ initHistoryState (some s) parse = Except.error e := by
  refine ⟨?_, ?_, rfl, ?_⟩
  · cases hww : write (serialize st.history) <;> simp [saveHistoryEffect, hww]
  · simp [saveHistoryEffect, hw]
  · simp [initHistoryState, hs, hp]

/-- Witness for the amended C6. -/
theorem history_persistence_policy_witness :
    (saveHistoryEffect (fun _ => none) (fun _ => emptyStr) stHistEx).1 = stHistEx
    ∧ (saveHistoryEffect (fun _ => none) (fun _ => emptyStr) stHistEx).2 =
        some saveWarningText
    ∧ initHistoryState none parseRejecting = Except.ok []
    ∧ initHistoryState (some openBraceText) parseRejecting =
        Except.error jsonSyntaxErrText :=
  history_persistence_policy (fun _ => none) (fun _ => emptyStr) stHistEx
    openBraceText parseRejecting jsonSyntaxErrText rfl (by decide) rfl

/-- C7: restoring a history entry with a non-empty transcript recreates a chat
session whose prior conversational turns equal that transcript exactly — the
session history is the document-context turn followed by precisely the mapped
transcript, so any greeting turn it contains comes from the transcript itself,
never from a re-sent synthetic greeting; fresh initialization, by contrast, seeds
both the document turn and the synthetic model greeting turn; and loadHistoryItem
routes a non-empty stored transcript through exactly this restoration. -/
theorem restore_transcript_exact_no_greeting (b mt : String) (l : Language)
    (ts : List ChatMessage) (st : ProviderState) (targetId : String)
    (item : HistoryItem) (m : ChatMessage) (ms : List ChatMessage) :
    ((restoreChatSession b mt l ts).history =
      docTurn b mt l :: ts.map chatTurnOfMessage)
    ∧ ((restoreChatSession b mt l ts).history.tail = ts.map chatTurnOfMessage)
    ∧ ((initializeChat b mt l).history = [docTurn b mt l, greetTurn l])
    ∧ (greetTurn l ∈ (restoreChatSession b mt l ts).history →
        ∃ m0 ∈ ts, chatTurnOfMessage m0 = greetTurn l)
    ∧ (st.history.find? (fun i => decide (i.id = targetId)) = some item →
       item.chatHistory = some (m :: ms) →
       strOptTruthy item.base64 = true →
       strOptTruthy item.mimeType = true →
       (loadHistoryItem st targetId).chatSession =
         some (restoreChatSession (item.base64.getD emptyStr)
           (item.mimeType.getD emptyStr) (item.language.getD Language.en) (m :: ms))
       ∧ (loadHistoryItem st targetId).chatMessages = m :: ms) := by
  refine ⟨rfl, rfl, rfl, ?_, ?_⟩
  · intro hmem
    rw [restoreChatSession] at hmem
    simp only [List.mem_cons] at hmem
    rcases hmem with h | h
    · exact absurd (congrArg ChatTurn.role h) (by simp [greetTurn, docTurn])
    · exact List.mem_map.mp h
  · intro hfind hch hb hm2
    constructor <;> simp [loadHistoryItem, hfind, hch, hb, hm2]

/-- Example saved chat message. -/
def msgHello : ChatMessage :=
  { id := "m1", role := ChatRole.model, text := helloText, timestamp := 1 }

/-- Example history entry carrying a non-empty saved transcript. -/
def entryChatEx : HistoryItem :=
  { entryEx with id := "h2", chatHistory := some [msgHello] }

/-- State holding the entry with the saved transcript. -/
def stChatHist : ProviderState := { initialState with history := [entryChatEx] }

/-- Witness for C7. -/
theorem restore_transcript_exact_no_greeting_witness :
    ((loadHistoryItem stChatHist entryChatEx.id).chatSession =
      some (restoreChatSession (entryChatEx.base64.getD emptyStr)
        (entryChatEx.mimeType.getD emptyStr) (entryChatEx.language.getD Language.en)
        [msgHello]))
    ∧ (loadHistoryItem stChatHist entryChatEx.id).chatMessages = [msgHello]
    ∧ (restoreChatSession exB64 exMime Language.en [msgHello]).history.tail =
        [msgHello].map chatTurnOfMessage :=
  ⟨((restore_transcript_exact_no_greeting exB64 exMime Language.en [msgHello]
      stChatHist entryChatEx.id entryChatEx msgHello []).2.2.2.2
      (by decide) rfl (by decide) (by decide)).1,
   ((restore_transcript_exact_no_greeting exB64 exMime Language.en [msgHello]
      stChatHist entryChatEx.id entryChatEx msgHello []).2.2.2.2
      (by decide) rfl (by decide) (by decide)).2,
   (restore_transcript_exact_no_greeting exB64 exMime Language.en [msgHello]
      stChatHist entryChatEx.id entryChatEx msgHello []).2.1⟩

/-- C8: the comparison selection toggle keeps the selection at size at most two;
an already-selected entry is removed, a new entry is appended while fewer than
two are selected, and with two selected the oldest-added (head) selection is
evicted before the new entry is appended (FIFO); toggling three distinct entries
in sequence from an empty selection leaves exactly the second and third. -/
theorem comparison_selection_fifo (sel : List HistoryItem) (e A B C : HistoryItem) :
    (sel.length ≤ 2 → (toggleSelection sel e).length ≤ 2)
    ∧ (sel.any (fun i => decide (i.id = e.id)) = true →
        toggleSelection sel e = sel.filter (fun i => decide (i.id ≠ e.id)))
    ∧ (sel.any (fun i => decide (i.id = e.id)) = false → sel.length < 2 →
        toggleSelection sel e = sel ++ [e])
    ∧ (sel.any (fun i => decide (i.id = e.id)) = false → sel.length ≥ 2 →
        toggleSelection sel e = sel.tail ++ [e])
    ∧ (A.id ≠ B.id → A.id ≠ C.id → B.id ≠ C.id →
        toggleSelection (toggleSelection (toggleSelection [] A) B) C = [B, C]) := by
  refine ⟨?_, ?_, ?_, ?_, ?_⟩
  · intro hlen
    cases hsel : sel.any (fun i => decide (i.id = e.id)) with
    | true =>
        simp only [toggleSelection, hsel, if_true]
        exact le_trans (List.length_filter_le _ _) hlen
    | false =>
        by_cases h2 : sel.length ≥ 2
        · simp only [toggleSelection, hsel, Bool.false_eq_true, if_false, h2, if_true]
          cases sel with
          | nil => simp at h2
          | cons a t =>
              simp only [List.length_cons] at hlen
              simp only [List.tail_cons, List.length_append, List.length_cons,
                List.length_nil]
              omega
        · simp only [toggleSelection, hsel, Bool.false_eq_true, if_false, h2]
          simp only [List.length_append, List.length_cons, List.length_nil]
          omega
  · intro hsel
    simp [toggleSelection, hsel]
  · intro hsel hlt
    simp [toggleSelection, hsel, Nat.not_le.mpr hlt]
  · intro hsel hge
    simp [toggleSelection, hsel, hge]
  · intro hAB hAC hBC
    have s1 : toggleSelection [] A = [A] := by simp [toggleSelection]
    have s2 : toggleSelection [A] B = [A, B] := by
      simp [toggleSelection, hAB]
    have s3 : toggleSelection [A, B] C = [B, C] := by
      simp [toggleSelection, hAC, hBC]
    rw [s1, s2, s3]

/-- Example selection entries with distinct ids. -/
def itemA : HistoryItem := { entryEx with id := "a", date := 1 }

/-- Second example selection entry. -/
def itemB : HistoryItem := { entryEx with id := "b", date := 2 }

/-- Third example selection entry. -/
def itemC : HistoryItem := { entryEx with id := "c", date := 3 }

/-- Witness for C8. -/
theorem comparison_selection_fifo_witness :
    toggleSelection (toggleSelection (toggleSelection [] itemA) itemB) itemC =
      [itemB, itemC]
    ∧ (toggleSelection [itemA] itemB).length ≤ 2 :=
  ⟨(comparison_selection_fifo [] itemA itemA itemB itemC).2.2.2.2
      (by decide) (by decide) (by decide),
   (comparison_selection_fifo [itemA] itemB itemA itemB itemC).1 (by decide)⟩

/-! Helper lemmas about prepareComparison, by induction on the selection. -/

theorem prepareComparison_history_suffix (svc : AnalyzeService) (now : Nat) :
    ∀ (sel : List HistoryItem) (st : ProviderState) (L : Language),
    ∃ pre, (prepareComparison svc now st sel L).1.history = pre ++ st.history := by
  intro sel
  induction sel with
  | nil => exact fun st L => ⟨[], rfl⟩
  | cons e rest ih =>
    intro st L
    cases hf : st.history.find? (matchesDocLang (e.base64.getD emptyStr) L) with
    | some hm =>
        obtain ⟨pre, hp⟩ := ih st L
        exact ⟨pre, by simp [prepareComparison, hf, hp]⟩
    | none =>
      cases hs : svc (e.base64.getD emptyStr) (e.mimeType.getD emptyStr) L with
      | some r =>
          obtain ⟨pre, hp⟩ :=
            ih { st with history := preparedEntry now e L r :: st.history } L
          refine ⟨pre ++ [preparedEntry now e L r], ?_⟩
          simp only [prepareComparison, hf, hs]
          rw [hp]
          simp
      | none =>
          obtain ⟨pre, hp⟩ := ih st L
          exact ⟨pre, by simp [prepareComparison, hf, hs, hp]⟩

theorem prepareComparison_ok_available (svc : AnalyzeService) (now : Nat) :
    ∀ (sel : List HistoryItem) (st : ProviderState) (L : Language),
    (prepareComparison svc now st sel L).2.2 = true →
    ∀ e ∈ sel, ∃ h, h ∈ (prepareComparison svc now st sel L).1.history
      ∧ matchesDocLang (e.base64.getD emptyStr) L h = true := by
  intro sel
  induction sel with
  | nil =>
      intro st L hok e he
      cases he
  | cons e0 rest ih =>
    intro st L hok e he
    cases hf : st.history.find? (matchesDocLang (e0.base64.getD emptyStr) L) with
    | some hm =>
        have heq : prepareComparison svc now st (e0 :: rest) L =
            prepareComparison svc now st rest L := by
          simp [prepareComparison, hf]
        rw [heq] at hok ⊢
        rcases List.mem_cons.mp he with rfl | hrest
        · obtain ⟨pre, hp⟩ := prepareComparison_history_suffix svc now rest st L
          refine ⟨hm, ?_, List.find?_some hf⟩
          rw [hp]
          exact List.mem_append_right _ (List.mem_of_find?_eq_some hf)
        · exact ih st L hok e hrest
    | none =>
      cases hs : svc (e0.base64.getD emptyStr) (e0.mimeType.getD emptyStr) L with
      | some r =>
          have h1 : (prepareComparison svc now st (e0 :: rest) L).1 =
              (prepareComparison svc now
                { st with history := preparedEntry now e0 L r :: st.history }
                rest L).1 := by
            simp [prepareComparison, hf, hs]
          have h2 : (prepareComparison svc now st (e0 :: rest) L).2.2 =
              (prepareComparison svc now
                { st with history := preparedEntry now e0 L r :: st.history }
                rest L).2.2 := by
            simp [prepareComparison, hf, hs]
          rw [h2] at hok
          rw [h1]
          rcases List.mem_cons.mp he with rfl | hrest
          · obtain ⟨pre, hp⟩ := prepareComparison_history_suffix svc now rest
              { st with history := preparedEntry now e L r :: st.history } L
            refine ⟨preparedEntry now e L r, ?_, ?_⟩
            · rw [hp]
              exact List.mem_append_right _ (List.mem_cons_self _ _)
            · simp [matchesDocLang, preparedEntry]
          · exact ih _ L hok e hrest
      | none =>
          have h2 : (prepareComparison svc now st (e0 :: rest) L).2.2 = false := by
            simp [prepareComparison, hf, hs]
          rw [h2] at hok
          cases hok

theorem prepareComparison_calls (svc : AnalyzeService) (now : Nat) :
    ∀ (sel : List HistoryItem) (st : ProviderState) (L : Language),
    sel.Pairwise (fun x y => x.base64.getD emptyStr ≠ y.base64.getD emptyStr) →
    ∀ e ∈ sel,
      st.history.find? (matchesDocLang (e.base64.getD emptyStr) L) = none →
      ExtCall.analyze (e.base64.getD emptyStr) (e.mimeType.getD emptyStr) L ∈
        (prepareComparison svc now st sel L).2.1 := by
  intro sel
  induction sel with
  | nil =>
      intro st L hpw e he
      cases he
  | cons e0 rest ih =>
    intro st L hpw e he hnone
    rcases List.pairwise_cons.mp hpw with ⟨hhead, htail⟩
    rcases List.mem_cons.mp he with rfl | hrest
    · cases hs : svc (e.base64.getD emptyStr) (e.mimeType.getD emptyStr) L with
      | some r => simp [prepareComparison, hnone, hs]
      | none => simp [prepareComparison, hnone, hs]
    · cases hf : st.history.find? (matchesDocLang (e0.base64.getD emptyStr) L) with
      | some hm =>
          have h2 : (prepareComparison svc now st (e0 :: rest) L).2.1 =
              (prepareComparison svc now st rest L).2.1 := by
            simp [prepareComparison, hf]
          rw [h2]
          exact ih st L htail e hrest hnone
      | none =>
        cases hs : svc (e0.base64.getD emptyStr) (e0.mimeType.getD emptyStr) L with
        | some r =>
            have h2 : (prepareComparison svc now st (e0 :: rest) L).2.1 =
                ExtCall.analyze (e0.base64.getD emptyStr) (e0.mimeType.getD emptyStr) L
                  :: (prepareComparison svc now
                      { st with history := preparedEntry now e0 L r :: st.history }
                      rest L).2.1 := by
              simp [prepareComparison, hf, hs]
            rw [h2]
            refine List.mem_cons_of_mem _ ?_
            refine ih _ L htail e hrest ?_
            have hxb := hhead e hrest
            have hne0 : matchesDocLang (e.base64.getD emptyStr) L
                (preparedEntry now e0 L r) = false := by
              simp [matchesDocLang, preparedEntry, hxb]
            show (preparedEntry now e0 L r :: st.history).find?
              (matchesDocLang (e.base64.getD emptyStr) L) = none
            rw [List.find?_cons_of_neg _ (by simp [hne0])]
            exact hnone
        | none =>
            have h2 : (prepareComparison svc now st (e0 :: rest) L).2.1 =
                ExtCall.analyze (e0.base64.getD emptyStr) (e0.mimeType.getD emptyStr) L
                  :: (prepareComparison svc now st rest L).2.1 := by
              simp [prepareComparison, hf, hs]
            rw [h2]
            exact List.mem_cons_of_mem _ (ih st L htail e hrest hnone)

/-- C9: before navigation to the comparison view, every selected entry whose
document identity is not yet available in the target language triggers an
on-the-fly analyze resolution, and when handleCompare allows navigation every
selected entry has a history entry in the target language, so comparison never
displays two analyses produced in different output languages. -/
theorem prepareComparison_language_alignment (svc : AnalyzeService) (now : Nat)
    (st : ProviderState)
    (hpw : st.compareItems.Pairwise
      (fun x y => x.base64.getD emptyStr ≠ y.base64.getD emptyStr)) :
    (∀ e ∈ st.compareItems,
       st.history.find? (matchesDocLang (e.base64.getD emptyStr) st.language) =
         none →
       ExtCall.analyze (e.base64.getD emptyStr) (e.mimeType.getD emptyStr)
         st.language ∈
         (prepareComparison svc now st st.compareItems st.language).2.1)
    ∧ ((handleCompare svc now st).2.2 = true →
        ∀ e ∈ st.compareItems,
          ∃ h, h ∈ (handleCompare svc now st).1.history
            ∧ matchesDocLang (e.base64.getD emptyStr) st.language h = true) := by
  constructor
  · intro e he hn
    exact prepareComparison_calls svc now st.compareItems st st.language hpw e he hn
  · intro hok e he
    by_cases hcond : (decide (st.compareItems.length = 2) && !typeMismatch st
        && !st.isAnalyzing) = true
    · have heq : handleCompare svc now st =
          prepareComparison svc now st st.compareItems st.language := by
        simp only [handleCompare, hcond, if_true]
      rw [heq] at hok ⊢
      exact prepareComparison_ok_available svc now st.compareItems st st.language
        hok e he
    · have hfalse : (handleCompare svc now st).2.2 = false := by
        simp only [handleCompare, if_neg hcond]
      rw [hfalse] at hok
      cases hok

/-- Selection entry over a second, distinct document. -/
def itemD : HistoryItem := { entryEx with id := "d", base64 := some exB64b }

/-- State with two distinct-document entries selected for comparison. -/
def stCompareEx : ProviderState :=
  { initialState with compareItems := [itemA, itemD] }

/-- Witness for C9. -/
theorem prepareComparison_language_alignment_witness :
    (ExtCall.analyze (itemA.base64.getD emptyStr) (itemA.mimeType.getD emptyStr)
      stCompareEx.language ∈
      (prepareComparison svcOk 4 stCompareEx stCompareEx.compareItems
        stCompareEx.language).2.1)
    ∧ ∃ h, h ∈ (handleCompare svcOk 4 stCompareEx).1.history
        ∧ matchesDocLang (itemA.base64.getD emptyStr) stCompareEx.language h =
            true :=
  ⟨(prepareComparison_language_alignment svcOk 4 stCompareEx (by decide)).1
      itemA (by decide) (by decide),
   (prepareComparison_language_alignment svcOk 4 stCompareEx (by decide)).2
      (by decide) itemA (by decide)⟩

/-! Helper lemmas about the smart cache fold of loadHistoryItem. -/

theorem foldl_cacheStep_some (rs : List HistoryItem)
    (c : Language → Option AnalysisData) (L : Language) (d : AnalysisData)
    (h : c L = some d) : (rs.foldl cacheStep c) L = some d := by
  induction rs generalizing c with
  | nil => exact h
  | cons r rest ih =>
    rw [List.foldl_cons]
    refine ih _ ?_
    cases hcr : c (r.language.getD Language.en) with
    | some d0 => simpa [cacheStep, hcr] using h
    | none =>
      by_cases hr : L = r.language.getD Language.en
      · rw [hr] at h
        rw [h] at hcr
        cases hcr
      · simpa [cacheStep, hcr, setCacheEntry, hr] using h

theorem foldl_cacheStep_none (rs : List HistoryItem)
    (c : Language → Option AnalysisData) (L : Language) (h : c L = none) :
    (rs.foldl cacheStep c) L =
      (rs.find? (fun r => decide (r.language.getD Language.en = L))).map
        (fun r => r.data) := by
  induction rs generalizing c with
  | nil => simpa using h
  | cons r rest ih =>
    rw [List.foldl_cons]
    by_cases hr : r.language.getD Language.en = L
    · have hcr : c (r.language.getD Language.en) = none := by rw [hr]; exact h
      have hstep : cacheStep c r =
          setCacheEntry c (r.language.getD Language.en) r.data := by
        simp [cacheStep, hcr]
      rw [hstep]
      have hset : setCacheEntry c (r.language.getD Language.en) r.data L =
          some r.data := by
        simp [setCacheEntry, hr]
      rw [foldl_cacheStep_some rest _ L r.data hset]
      rw [List.find?_cons_of_pos _ (by simp [hr])]
      rfl
    · have hstep : cacheStep c r L = c L := by
        cases hcr : c (r.language.getD Language.en) with
        | some d0 => simp [cacheStep, hcr]
        | none =>
            simp [cacheStep, hcr, setCacheEntry]
            intro hLr
            exact absurd hLr.symm hr
      have : (rest.foldl cacheStep (cacheStep c r)) L =
          (rest.find? (fun r2 => decide (r2.language.getD Language.en = L))).map
            (fun r2 => r2.data) :=
        ih _ (by rw [hstep]; exact h)
      rw [this, List.find?_cons_of_neg _ (by simp [hr])]

theorem find?_filter_eq {α : Type} (l : List α) (p q : α → Bool) :
    (l.filter p).find? q = l.find? (fun x => p x && q x) := by
  induction l with
  | nil => rfl
  | cons a t ih =>
    by_cases hp : p a
    · rw [List.filter_cons_of_pos hp]
      by_cases hq : q a
      · rw [List.find?_cons_of_pos _ hq,
          List.find?_cons_of_pos _ (by simp [hp, hq])]
      · rw [List.find?_cons_of_neg _ hq,
          List.find?_cons_of_neg _ (by simp [hq]), ih]
    · rw [List.filter_cons_of_neg (by simpa using hp),
        List.find?_cons_of_neg _ (by simp [hp]), ih]

/-- The combined predicate selecting, among the persisted entries, the related
language versions considered by the smart cache population for one language. -/
def relatedPred (b : String) (itemId : String) (L : Language)
    (h : HistoryItem) : Bool :=
  (decide (h.base64 = some b) && decide (h.id ≠ itemId)) &&
    decide (h.language.getD Language.en = L)

theorem find?_filter_related (l : List HistoryItem) (b itemId : String)
    (L : Language) :
    (l.filter (fun h => decide (h.base64 = some b) && decide (h.id ≠ itemId))).find?
      (fun r => decide (r.language.getD Language.en = L)) =
    l.find? (relatedPred b itemId L) := by
  rw [find?_filter_eq]
  rfl

theorem pairwise_id_inj (l : List HistoryItem)
    (hpw : l.Pairwise (fun x y => x.id ≠ y.id)) :
    ∀ a ∈ l, ∀ b ∈ l, a.id = b.id → a = b := by
  induction l with
  | nil =>
      intro a ha
      cases ha
  | cons x t ih =>
    rcases List.pairwise_cons.mp hpw with ⟨hx, ht⟩
    intro a ha b hb heq
    rcases List.mem_cons.mp ha with ha1 | ha2
    · rcases List.mem_cons.mp hb with hb1 | hb2
      · rw [ha1, hb1]
      · rw [ha1] at heq
        exact absurd heq (hx b hb2)
    · rcases List.mem_cons.mp hb with hb1 | hb2
      · rw [hb1] at heq
        exact absurd heq.symm (hx a ha2)
      · exact ih ht a ha2 b hb2 heq

theorem find?_first_rel {α : Type} (R : α → α → Prop) (p : α → Bool) :
    ∀ (l : List α), l.Pairwise R → ∀ x, l.find? p = some x →
    ∀ y ∈ l, p y = true → x = y ∨ R x y := by
  intro l
  induction l with
  | nil =>
      intro _ x hf
      cases hf
  | cons a t ih =>
    intro hpw x hf y hy hpy
    rcases List.pairwise_cons.mp hpw with ⟨ha, ht⟩
    by_cases hpa : p a
    · rw [List.find?_cons_of_pos _ hpa] at hf
      injection hf with hf
      subst hf
      rcases List.mem_cons.mp hy with rfl | hy
      · exact Or.inl rfl
      · exact Or.inr (ha y hy)
    · rw [List.find?_cons_of_neg _ hpa] at hf
      rcases List.mem_cons.mp hy with rfl | hy
      · exact absurd hpy hpa
      · exact ih ht x hf y hy hpy

theorem find?_isSome_of_mem {α : Type} (l : List α) (p : α → Bool) (x : α)
    (hx : x ∈ l) (hp : p x = true) : ∃ z, l.find? p = some z := by
  induction l with
  | nil => cases hx
  | cons a t ih =>
    by_cases hpa : p a
    · exact ⟨a, List.find?_cons_of_pos _ hpa⟩
    · rcases List.mem_cons.mp hx with rfl | hx
      · exact absurd hp hpa
      · obtain ⟨z, hz⟩ := ih hx
        exact ⟨z, by rw [List.find?_cons_of_neg _ hpa]; exact hz⟩

/-- The analysis cache produced by loadHistoryItem when the loaded entry carries
a non-empty stored base64. -/
theorem loadHistoryItem_cache (st : ProviderState) (targetId : String)
    (item : HistoryItem) (b : String)
    (hfind : st.history.find? (fun i => decide (i.id = targetId)) = some item)
    (hb : item.base64 = some b) (hbne : b ≠ emptyStr) :
    (loadHistoryItem st targetId).analysisCache =
      (st.history.filter
          (fun h => decide (h.base64 = some b) && decide (h.id ≠ item.id))).foldl
        cacheStep
        (setCacheEntry emptyCache (item.language.getD Language.en) item.data) := by
  simp [loadHistoryItem, hfind, hb, hbne]

theorem loadHistoryItem_fileData (st : ProviderState) (targetId : String)
    (item : HistoryItem)
    (hfind : st.history.find? (fun i => decide (i.id = targetId)) = some item) :
    ∃ fd, (loadHistoryItem st targetId).fileData = some fd := by
  simp only [loadHistoryItem, hfind]
  exact ⟨_, rfl⟩

theorem loadHistoryItem_isAnalyzing (st : ProviderState) (targetId : String) :
    (loadHistoryItem st targetId).isAnalyzing = st.isAnalyzing := by
  cases hfind : st.history.find? (fun i => decide (i.id = targetId)) <;>
    simp [loadHistoryItem, hfind]

/-- C10: after loadHistoryItem succeeds for an entry with stored content b, the
per-language cache holds the loaded entry's own result for its own language (the
loaded entry takes precedence), and for every other language in which the same
content has a history entry the cache holds the result of a newest such entry,
so a subsequent language switch to any language covered by history issues no
external analyze call. -/
theorem loadHistoryItem_smart_cache (svc : AnalyzeService) (now : Nat)
    (st : ProviderState) (targetId : String) (item : HistoryItem) (b : String)
    (hfind : st.history.find? (fun i => decide (i.id = targetId)) = some item)
    (hb : item.base64 = some b) (hbne : b ≠ emptyStr)
    (hids : st.history.Pairwise (fun x y => x.id ≠ y.id))
    (hdates : st.history.Pairwise (fun x y => y.date ≤ x.date))
    (hA : st.isAnalyzing = false) :
    ((loadHistoryItem st targetId).analysisCache (item.language.getD Language.en) =
      some item.data)
    ∧ (∀ L : Language, L ≠ item.language.getD Language.en →
        (∃ h0, h0 ∈ st.history ∧ h0.base64 = some b
          ∧ h0.language.getD Language.en = L) →
        ∃ h, h ∈ st.history ∧ h.base64 = some b
          ∧ h.language.getD Language.en = L
          ∧ (loadHistoryItem st targetId).analysisCache L = some h.data
          ∧ ∀ h2 ∈ st.history, h2.base64 = some b →
              h2.language.getD Language.en = L → h2.date ≤ h.date)
    ∧ (∀ L : Language,
        (∃ h0, h0 ∈ st.history ∧ h0.base64 = some b
          ∧ h0.language.getD Language.en = L) →
        (updateLanguage svc now (loadHistoryItem st targetId) L).2 = []) := by
  have hitemMem : item ∈ st.history := List.mem_of_find?_eq_some hfind
  have hcacheq := loadHistoryItem_cache st targetId item b hfind hb hbne
  have hpart1 : (loadHistoryItem st targetId).analysisCache
      (item.language.getD Language.en) = some item.data := by
    rw [hcacheq]
    exact foldl_cacheStep_some _ _ _ _ (by simp [setCacheEntry])
  have hpart2 : ∀ L : Language, L ≠ item.language.getD Language.en →
      (∃ h0, h0 ∈ st.history ∧ h0.base64 = some b
        ∧ h0.language.getD Language.en = L) →
      ∃ h, h ∈ st.history ∧ h.base64 = some b
        ∧ h.language.getD Language.en = L
        ∧ (loadHistoryItem st targetId).analysisCache L = some h.data
        ∧ ∀ h2 ∈ st.history, h2.base64 = some b →
            h2.language.getD Language.en = L → h2.date ≤ h.date := by
    intro L hLne ⟨h0, h0mem, h0b, h0L⟩
    have hIdNe : ∀ h2 ∈ st.history, h2.base64 = some b →
        h2.language.getD Language.en = L → h2.id ≠ item.id := by
      intro h2 h2mem h2b h2L h2id
      have : h2 = item := pairwise_id_inj st.history hids h2 h2mem item hitemMem h2id
      rw [this] at h2L
      exact hLne h2L.symm
    have hcombined : ∀ h2 : HistoryItem,
        relatedPred b item.id L h2 = true ↔
        h2.base64 = some b ∧ h2.id ≠ item.id ∧ h2.language.getD Language.en = L := by
      intro h2
      simp [relatedPred, and_assoc]
    have hcache1 : setCacheEntry emptyCache (item.language.getD Language.en)
        item.data L = none := by
      simp [setCacheEntry, emptyCache, hLne]
    have hfold := foldl_cacheStep_none
      (st.history.filter
        (fun h => decide (h.base64 = some b) && decide (h.id ≠ item.id)))
      (setCacheEntry emptyCache (item.language.getD Language.en) item.data)
      L hcache1
    rw [find?_filter_related] at hfold
    obtain ⟨x, hx⟩ := find?_isSome_of_mem st.history (relatedPred b item.id L)
      h0 h0mem ((hcombined h0).mpr ⟨h0b, hIdNe h0 h0mem h0b h0L, h0L⟩)
    have hxmem := List.mem_of_find?_eq_some hx
    have hxprop := (hcombined x).mp (List.find?_some hx)
    refine ⟨x, hxmem, hxprop.1, hxprop.2.2, ?_, ?_⟩
    · rw [hcacheq, hfold, hx]
      rfl
    · intro h2 h2mem h2b h2L
      have h2pred : relatedPred b item.id L h2 = true :=
        (hcombined h2).mpr ⟨h2b, hIdNe h2 h2mem h2b h2L, h2L⟩
      rcases find?_first_rel (fun u v => v.date ≤ u.date)
          (relatedPred b item.id L) st.history hdates x hx h2 h2mem h2pred with
        heq | hle
      · rw [heq]
      · exact hle
  refine ⟨hpart1, hpart2, ?_⟩
  intro L ⟨h0, h0mem, h0b, h0L⟩
  obtain ⟨r, hr⟩ : ∃ r, (loadHistoryItem st targetId).analysisCache L = some r := by
    by_cases hLi : L = item.language.getD Language.en
    · exact ⟨item.data, by rw [hLi]; exact hpart1⟩
    · obtain ⟨h, _, _, _, hc, _⟩ := hpart2 L hLi ⟨h0, h0mem, h0b, h0L⟩
      exact ⟨h.data, hc⟩
  obtain ⟨fd, hfd⟩ := loadHistoryItem_fileData st targetId item hfind
  have han : (loadHistoryItem st targetId).isAnalyzing = false := by
    rw [loadHistoryItem_isAnalyzing]
    exact hA
  rw [updateLanguage_run svc now (loadHistoryItem st targetId) L fd hfd han,
    performAnalysis_cache_hit svc now
      { loadHistoryItem st targetId with language := L } fd L r hr]

/-- A Vietnamese history entry for the same example document, newer than the
English one. -/
def entryViEx : HistoryItem :=
  { entryEx with id := "h3", date := 10, language := some Language.vi, data := dEx2 }

/-- State holding both language versions of the example document, newest first. -/
def stTwoLangs : ProviderState :=
  { initialState with history := [entryViEx, entryEx] }

/-- Witness for C10. -/
theorem loadHistoryItem_smart_cache_witness :
    ((loadHistoryItem stTwoLangs entryEx.id).analysisCache
      (entryEx.language.getD Language.en) = some entryEx.data)
    ∧ (∃ h, h ∈ stTwoLangs.history ∧ h.base64 = some exB64
        ∧ h.language.getD Language.en = Language.vi
        ∧ (loadHistoryItem stTwoLangs entryEx.id).analysisCache Language.vi =
            some h.data
        ∧ ∀ h2 ∈ stTwoLangs.history, h2.base64 = some exB64 →
            h2.language.getD Language.en = Language.vi → h2.date ≤ h.date)
    ∧ (updateLanguage svcFail 9 (loadHistoryItem stTwoLangs entryEx.id)
        Language.vi).2 = [] :=
  ⟨(loadHistoryItem_smart_cache svcFail 9 stTwoLangs entryEx.id entryEx exB64
      (by decide) (by decide) (by decide) (by decide) (by decide) rfl).1,
   (loadHistoryItem_smart_cache svcFail 9 stTwoLangs entryEx.id entryEx exB64
      (by decide) (by decide) (by decide) (by decide) (by decide) rfl).2.1
      Language.vi (by decide) ⟨entryViEx, by decide, by decide, by decide⟩,
   (loadHistoryItem_smart_cache svcFail 9 stTwoLangs entryEx.id entryEx exB64
      (by decide) (by decide) (by decide) (by decide) (by decide) rfl).2.2
      Language.vi ⟨entryViEx, by decide, by decide, by decide⟩⟩

end MediClarify
